import Mathlib

/-!
Verification of the opencode-commander core against its design spec.

The TypeScript source is shallowly embedded: pure string manipulation
(`parseTaskRef`, `buildTaskPrompt`) becomes Lean string functions; the
asynchronous orchestration (`run`, `runTask`, `waitForHealthy`,
`destroyContainer`, `getContainerLogs`) becomes deterministic functions
over an explicit `World` describing the outcomes of the external
collaborators (the `podman`/`gh` process invocations, the health endpoint
responses, and the opencode SDK calls).  Thrown JavaScript errors are
modelled with `Except String`; the sequence of externally visible steps a
run performs is returned as an explicit action trace.
-/

set_option autoImplicit false

namespace Commander

/-- Parsed task reference, `src/github.ts` interface `TaskRef`. -/
structure TaskRef where
  owner : String
  repo : String
  issue : Nat
deriving DecidableEq, Repr

/-- Split a character list at the first occurrence of `c`: returns the
(`c`-free) prefix and the remainder after `c`.  This is how the anchored
regex `^([^/]+)\/([^#]+)#(\d+)$` consumes its first two groups: a greedy
run of characters excluding the delimiter, followed by the delimiter. -/
def splitFirst (c : Char) : List Char → Option (List Char × List Char)
  | [] => none
  | x :: xs =>
    if x = c then some ([], xs)
    else
      match splitFirst c xs with
      | none => none
      | some (a, b) => some (x :: a, b)

/-- Decimal value of a digit string, the effect of `parseInt(digits, 10)`
on a string of ASCII digits. -/
def decVal (d : List Char) : Nat :=
  d.foldl (fun acc c => acc * 10 + (c.toNat - 48)) 0

/-- Core of the regex match `^([^/]+)\/([^#]+)#(\d+)$` from
`src/github.ts:28`: owner up to the first `/`, repo up to the first `#`
of the remainder, then digits to the end of the string; every group must
be non-empty. -/
def parseTaskRefCore (s : List Char) : Option (List Char × List Char × List Char) :=
  match splitFirst '/' s with
  | none => none
  | some (o, rest) =>
    match splitFirst '#' rest with
    | none => none
    | some (r, d) =>
      if o.isEmpty || r.isEmpty || d.isEmpty then none
      else if d.all Char.isDigit then some (o, r, d) else none

/-- `parseTaskRef` from `src/github.ts:27-36`: on a match returns the
owner, repo and `parseInt` of the digit group; otherwise throws the
invalid-reference error. -/
def parseTaskRef (ref : String) : Except String TaskRef :=
  match parseTaskRefCore ref.data with
  | some (o, r, d) => .ok { owner := ⟨o⟩, repo := ⟨r⟩, issue := decVal d }
  | none => .error ("Invalid task reference: \"" ++ ref ++ "\". Expected format: owner/repo#issue")

/-- Branch name derived from an issue number, `run.ts` line
`const branch = agent/issue-<issue>`. -/
def branchFor (issueNumber : Nat) : String :=
  "agent/issue-" ++ toString issueNumber

/-- Issue fetched from GitHub, `src/github.ts` interface `Issue`. -/
structure Issue where
  number : Nat
  title : String
  body : String
  labels : List String
  url : String

/-- `src/container.ts` interface `Container`. -/
structure Container where
  id : String
  hostPort : Nat
  repo : String
  branch : String
deriving DecidableEq, Repr

/-- Result record returned by `run`, interface `RunResult`. -/
structure RunResult where
  success : Bool
  prUrl : Option String := none
  error : Option String := none
deriving DecidableEq, Repr

/-- Options accepted by `run`; the defaults are the ones destructured at
the head of `run` (`timeoutMinutes = 30`, `quiet = false`). -/
structure RunOptions where
  taskRef : String
  timeoutMinutes : Nat := 30
  quiet : Bool := false

/-- Outcome of one external process invocation (`exec` in `container.ts`,
or a direct `Bun.spawn`): either the process completes with captured
(trimmed) stdout/stderr and an exit code, or the invocation itself
throws. -/
inductive ExecOutcome where
  | completed (stdout stderr : String) (exitCode : Nat)
  | threw (msg : String)
deriving DecidableEq, Repr

/-- The lines of the task prompt, the array literal inside
`buildTaskPrompt` (`agent.ts:33-52`) before `.join("\n")`. -/
def buildTaskPromptLines (owner repo branch issueTitle issueBody : String)
    (issueNumber : Nat) : List String :=
  [ "You are working on the repository " ++ owner ++ "/" ++ repo ++ ".",
    "",
    "## Task",
    issueTitle,
    "",
    "## Description",
    issueBody,
    "",
    "## Instructions",
    "- You are on branch `" ++ branch ++ "`",
    "- Make the changes described above",
    "- Run any relevant tests",
    "- Commit your changes with clear, descriptive commit messages",
    "- Do NOT create a pull request -- the orchestrator will handle that",
    "",
    "## Context",
    "- Source issue: " ++ owner ++ "/" ++ repo ++ "#" ++ toString issueNumber,
    "- When you are done, simply stop. The orchestrator will detect completion and create the PR." ]

/-- `buildTaskPrompt` from `agent.ts:25-53`. -/
def buildTaskPrompt (owner repo branch issueTitle issueBody : String)
    (issueNumber : Nat) : String :=
  String.intercalate "\n" (buildTaskPromptLines owner repo branch issueTitle issueBody issueNumber)

/-- Opaque resolution value of `client.session.prompt`: the SDK fulfils
with a response object. -/
structure PromptValue where
  payload : String
deriving DecidableEq, Repr

/-- JavaScript truthiness of a prompt resolution value: the prompt
promise fulfils with an object, and an object is always truthy in
JavaScript. -/
def jsTruthy (_ : PromptValue) : Bool := true

/-- Behaviour of the `client.session.prompt` promise: it fulfils at time
`t` with a value, rejects at time `t` with an error message, or never
settles. -/
inductive PromptBehavior where
  | fulfilled (t : Nat) (v : PromptValue)
  | rejected (t : Nat) (msg : String)
  | pending
deriving DecidableEq, Repr

/-- The rejection message produced by the `timeout` helper
(`agent.ts:172-176`). -/
def timeoutMessage (ms : Nat) : String :=
  "Timed out after " ++ toString ms ++ "ms"

/-- Settled outcome of `Promise.race` between the prompt promise and
`timeout(ms)` (`agent.ts:94-102`). -/
inductive RaceOutcome where
  | fulfilled (v : PromptValue)
  | rejected (msg : String)
deriving DecidableEq, Repr

/-- Semantics of the race: the `timeout` helper returns a promise that
only rejects, so a fulfilment can only come from the prompt call, which
wins the race exactly when it settles strictly before the timer fires. -/
def race (pb : PromptBehavior) (timeoutMs : Nat) : RaceOutcome :=
  match pb with
  | .fulfilled t v => if t < timeoutMs then .fulfilled v else .rejected (timeoutMessage timeoutMs)
  | .rejected t m => if t < timeoutMs then .rejected m else .rejected (timeoutMessage timeoutMs)
  | .pending => .rejected (timeoutMessage timeoutMs)

/-- True when the prompt promise settles strictly before the deadline. -/
def settlesBefore (pb : PromptBehavior) (timeoutMs : Nat) : Bool :=
  match pb with
  | .fulfilled t _ => decide (t < timeoutMs)
  | .rejected t _ => decide (t < timeoutMs)
  | .pending => false

/-- `agent.ts` interface `AgentResult`. -/
structure AgentResult where
  success : Bool
  sessionId : String
  summary : String
  error : Option String := none
deriving DecidableEq, Repr

/-- `runTask` from `agent.ts:61-131`: session creation with no data
throws; otherwise the prompt call is raced against `timeout(timeoutMs)`.
A falsy race result would produce the "Agent timed out" record (in the
source the divisor chain `timeoutMs / 1000 / 60` is JavaScript float
division; the branch is proved unreachable below, so the rounding is
immaterial); a truthy result reports success; a rejection is caught and
reported as "Agent failed" with the rejection message. -/
def runTask (sessionData : Option String) (pb : PromptBehavior) (timeoutMs : Nat) :
    Except String AgentResult :=
  match sessionData with
  | none => .error "Failed to create session: no data returned"
  | some sessionId =>
    match race pb timeoutMs with
    | .fulfilled result =>
      if jsTruthy result = false then
        .ok { success := false, sessionId := sessionId, summary := "Agent timed out",
              error := some ("Task did not complete within "
                ++ toString (timeoutMs / 1000 / 60) ++ " minutes") }
      else
        .ok { success := true, sessionId := sessionId, summary := "Task completed successfully" }
    | .rejected errorMsg =>
      .ok { success := false, sessionId := sessionId, summary := "Agent failed",
            error := some errorMsg }

/-- One health poll's environment: when (in ms after the poll starts) the
HTTP response would settle, whether it is 2xx (`response.ok`), and
whether its JSON body carries a truthy `healthy` flag. -/
structure PollSpec where
  arrival : Nat
  ok : Bool
  healthy : Bool

/-- Per-call `AbortSignal.timeout(2_000)` bound (`container.ts:177`). -/
def perPollTimeoutMs : Nat := 2000

/-- `pollIntervalMs = 3_000` (`container.ts:167`). -/
def pollIntervalMs : Nat := 3000

/-- Time a poll call occupies: its response arrival, cut off by the
per-call abort timeout. -/
def pollDuration (p : PollSpec) : Nat := min p.arrival perPollTimeoutMs

/-- A poll succeeds when the response arrives before the per-call abort,
is 2xx, and its body reports `healthy: true`; aborts, network errors,
non-2xx statuses and non-healthy bodies all fall to the swallowing
`catch`. -/
def pollReceivesHealthy (p : PollSpec) : Bool :=
  decide (p.arrival < perPollTimeoutMs) && p.ok && p.healthy

/-- The timeout error thrown by `waitForHealthy` (`container.ts:195-197`). -/
def healthTimeoutMsg (cid : String) (timeoutMs : Nat) : String :=
  "Timed out waiting for opencode server in container " ++ cid
    ++ " after " ++ toString timeoutMs ++ "ms"

/-- Elapsed time at which poll `k` starts, assuming polls `0..k-1` all
failed: each iteration spends the poll's duration plus the 3-second
`Bun.sleep`. -/
def schedStart (polls : Nat → PollSpec) : Nat → Nat
  | 0 => 0
  | k + 1 => schedStart polls k + pollDuration (polls k) + pollIntervalMs

/-- Fuel-indexed poll loop of `waitForHealthy` (`container.ts:174-193`):
while the elapsed time is below the deadline, poll; return on the first
healthy poll; otherwise sleep the interval and re-check.  Returns the
outcome together with the elapsed times at which polls were started.
The fuel only bounds the recursion; `healthFuel` below always suffices
because every iteration advances elapsed time by at least the interval. -/
def waitGo (cid : String) (polls : Nat → PollSpec) (timeoutMs : Nat) :
    Nat → Nat → Nat → Except String Unit × List Nat
  | 0, _, elapsed =>
    if elapsed < timeoutMs then (.error "out of fuel", [])
    else (.error (healthTimeoutMsg cid timeoutMs), [])
  | fuel + 1, i, elapsed =>
    if elapsed < timeoutMs then
      if pollReceivesHealthy (polls i) then (.ok (), [elapsed])
      else
        let next := waitGo cid polls timeoutMs fuel (i + 1)
          (elapsed + pollDuration (polls i) + pollIntervalMs)
        (next.1, elapsed :: next.2)
    else (.error (healthTimeoutMsg cid timeoutMs), [])

/-- Fuel that provably never runs out for a given deadline. -/
def healthFuel (timeoutMs : Nat) : Nat := timeoutMs / pollIntervalMs + 2

/-- `waitForHealthy` from `container.ts:161-198`, as a function of the
per-poll environment. -/
def waitForHealthy (cid : String) (polls : Nat → PollSpec) (timeoutMs : Nat) :
    Except String Unit × List Nat :=
  waitGo cid polls timeoutMs (healthFuel timeoutMs) 0 0

/-- Default health deadline, 5 minutes (`container.ts:163`). -/
def defaultHealthTimeoutMs : Nat := 300000

/-- `createContainer` from `container.ts:83-154`, as a function of the
`podman run` invocation outcome: a non-zero exit throws the creation
error carrying the exit code and stderr; success returns a handle whose
id is the first 12 characters of stdout. -/
def createContainer (repo branch : String) (hostPort : Nat) (o : ExecOutcome) :
    Except String Container :=
  match o with
  | .threw m => .error m
  | .completed stdout stderr exitCode =>
    if exitCode ≠ 0 then
      .error ("Failed to create container (exit " ++ toString exitCode ++ "): " ++ stderr)
    else
      .ok { id := stdout.take 12, hostPort := hostPort, repo := repo, branch := branch }

/-- The two teardown commands issued by `destroyContainer`. -/
inductive DestroyStep where
  | stopCmd (cid : String)
  | rmCmd (cid : String)
deriving DecidableEq, Repr

/-- Warning logged when `podman stop` exits non-zero. -/
def stopWarning (cid err : String) : String :=
  "Failed to stop container " ++ cid ++ ": " ++ err

/-- Warning logged when `podman rm --force` exits non-zero. -/
def rmWarning (cid err : String) : String :=
  "Failed to remove container " ++ cid ++ ": " ++ err

/-- `destroyContainer` from `container.ts:203-225`: run `podman stop`,
warn if it exits non-zero, then run `podman rm --force`, warn if it exits
non-zero; no exit code is ever turned into a thrown error.  Returns the
commands attempted and the warnings logged. -/
def destroyContainer (cid : String) (stopExit : Nat) (stopStderr : String)
    (rmExit : Nat) (rmStderr : String) :
    Except String (List DestroyStep × List String) :=
  let stopWarnings := if stopExit ≠ 0 then [stopWarning cid stopStderr] else []
  let rmWarnings := if rmExit ≠ 0 then [rmWarning cid rmStderr] else []
  .ok ([DestroyStep.stopCmd cid, DestroyStep.rmCmd cid], stopWarnings ++ rmWarnings)

/-- JavaScript `a || b` on strings: the empty string is falsy. -/
def jsOrElse (a b : String) : String := if a = "" then b else a

/-- The command list built by `getContainerLogs` (`container.ts:231`). -/
def getLogsCmd (cid : String) : List String :=
  ["podman", "logs", "--tail", "100", cid]

/-- `getContainerLogs` from `container.ts:230-233`: returns
`result.stdout || result.stderr` whatever the exit code; it rejects only
if the process invocation itself throws. -/
def getContainerLogs (o : ExecOutcome) : Except String String :=
  match o with
  | .threw m => .error m
  | .completed stdout stderr _ => .ok (jsOrElse stdout stderr)

/-- The logs value observed inside `run`'s failure path
(`run.ts`: `getContainerLogs(container.id).catch(() => "(logs unavailable)")`). -/
def containerLogsForFailure (o : ExecOutcome) : String :=
  match getContainerLogs o with
  | .error _ => "(logs unavailable)"
  | .ok s => s

/-- `run.ts` push-result record. -/
structure PushResult where
  success : Bool
  error : Option String := none
deriving DecidableEq, Repr

/-- `pushBranchFromContainer` from `run.ts:181-205`: non-zero exit maps
to a failed result carrying stderr; a spawn failure would propagate. -/
def pushBranchFromContainer (o : ExecOutcome) : Except String PushResult :=
  match o with
  | .threw m => .error m
  | .completed _ stderr exitCode =>
    if exitCode ≠ 0 then .ok { success := false, error := some stderr }
    else .ok { success := true }

/-- Externally visible steps performed by one `run` invocation, in
program order. -/
inductive Action where
  | fetchIssueA
  | createContainerA
  | commentIssueA
  | waitHealthyA
  | monitorStartA
  | runTaskA
  | monitorStopA
  | getLogsA
  | pushBranchA
  | createPRA
  | destroyA (cid : String)
deriving DecidableEq, Repr

def isDestroyA : Action → Bool
  | .destroyA _ => true
  | _ => false

/-- Outcomes of all external collaborators one `run` invocation can
touch, fixed up front: the issue fetch, the allocated host port, the
`podman run` invocation, the health endpoint behaviour, the opencode
session and prompt calls, the push and logs invocations, the
pull-request creation, and the teardown exit codes. -/
structure World where
  issueRes : Except String Issue
  hostPort : Nat
  createRes : ExecOutcome
  polls : Nat → PollSpec
  sessionData : Option String
  promptB : PromptBehavior
  pushRes : ExecOutcome
  logsRes : ExecOutcome
  prRes : Except String String
  stopExit : Nat
  stopStderr : String
  rmExit : Nat
  rmStderr : String

/-- Trace contribution of a best-effort `commentOnIssue` call (skipped
when `quiet`; its failures are swallowed with `.catch`). -/
def commentActions (quiet : Bool) : List Action :=
  if quiet then [] else [Action.commentIssueA]

/-- The body of `run`'s `try` block after the container exists
(`run.ts:73-165`): status comment, health wait, event monitor start,
agent run, monitor stop, then either the failure path (logs + comment +
structured failure) or push, PR creation and the success comment.
Thrown errors (health timeout, session creation, push spawn, PR
creation) short-circuit to the `finally`. -/
def runBody (w : World) (opts : RunOptions) (c : Container) :
    Except String RunResult × List Action :=
  match (waitForHealthy c.id w.polls defaultHealthTimeoutMs).1 with
  | .error e => (.error e, commentActions opts.quiet ++ [Action.waitHealthyA])
  | .ok _ =>
    match runTask w.sessionData w.promptB (opts.timeoutMinutes * 60 * 1000) with
    | .error e =>
      (.error e, commentActions opts.quiet
        ++ [Action.waitHealthyA, Action.monitorStartA, Action.runTaskA])
    | .ok agentResult =>
      if agentResult.success = false then
        (.ok { success := false, error := some (agentResult.error.getD "Agent failed") },
          commentActions opts.quiet
            ++ [Action.waitHealthyA, Action.monitorStartA, Action.runTaskA,
                Action.monitorStopA, Action.getLogsA]
            ++ commentActions opts.quiet)
      else
        match pushBranchFromContainer w.pushRes with
        | .error e =>
          (.error e, commentActions opts.quiet
            ++ [Action.waitHealthyA, Action.monitorStartA, Action.runTaskA,
                Action.monitorStopA, Action.pushBranchA])
        | .ok pushResult =>
          if pushResult.success = false then
            (.ok { success := false,
                   error := some ("Failed to push branch: " ++ pushResult.error.getD "undefined") },
              commentActions opts.quiet
                ++ [Action.waitHealthyA, Action.monitorStartA, Action.runTaskA,
                    Action.monitorStopA, Action.pushBranchA])
          else
            match w.prRes with
            | .error e =>
              (.error e, commentActions opts.quiet
                ++ [Action.waitHealthyA, Action.monitorStartA, Action.runTaskA,
                    Action.monitorStopA, Action.pushBranchA, Action.createPRA])
            | .ok prUrl =>
              (.ok { success := true, prUrl := some prUrl },
                commentActions opts.quiet
                  ++ [Action.waitHealthyA, Action.monitorStartA, Action.runTaskA,
                      Action.monitorStopA, Action.pushBranchA, Action.createPRA]
                  ++ commentActions opts.quiet)

/-- `run` from `run.ts:45-176`: parse the reference, fetch the issue,
create the container, run the body inside `try`, and in `finally`
unconditionally destroy the container (its own failures caught).  The
second component is the trace of externally visible steps. -/
def run (w : World) (opts : RunOptions) : Except String RunResult × List Action :=
  match parseTaskRef opts.taskRef with
  | .error e => (.error e, [])
  | .ok ref =>
    match w.issueRes with
    | .error e => (.error e, [Action.fetchIssueA])
    | .ok _issue =>
      match createContainer (ref.owner ++ "/" ++ ref.repo) (branchFor ref.issue)
          w.hostPort w.createRes with
      | .error e => (.error e, [Action.fetchIssueA, Action.createContainerA])
      | .ok c =>
        let body := runBody w opts c
        (body.1, ([Action.fetchIssueA, Action.createContainerA] ++ body.2)
          ++ [Action.destroyA c.id])

/-- A concrete world in which every collaborator succeeds. -/
def happyWorld : World where
  issueRes := .ok { number := 42, title := "t", body := "b", labels := [], url := "u" }
  hostPort := 40000
  createRes := .completed "abcdef0123456789" "" 0
  polls := fun _ => { arrival := 100, ok := true, healthy := true }
  sessionData := some "sess"
  promptB := .fulfilled 1000 ⟨"resp"⟩
  pushRes := .completed "" "" 0
  logsRes := .completed "log" "" 0
  prRes := .ok "https://example.test/pr/1"
  stopExit := 0
  stopStderr := ""
  rmExit := 0
  rmStderr := ""

theorem splitFirst_append (c : Char) (a b : List Char) (ha : ∀ x ∈ a, x ≠ c) :
    splitFirst c (a ++ c :: b) = some (a, b) := by
  induction a with
  | nil => simp [splitFirst]
  | cons x xs ih =>
    have hx : x ≠ c := ha x (by simp)
    have hxs : ∀ y ∈ xs, y ≠ c := fun y hy => ha y (by simp [hy])
    simp [splitFirst, hx, ih hxs]

theorem splitFirst_eq_some (c : Char) :
    ∀ (l a b : List Char), splitFirst c l = some (a, b) →
      l = a ++ c :: b ∧ ∀ x ∈ a, x ≠ c := by
  intro l
  induction l with
  | nil => intro a b h; simp [splitFirst] at h
  | cons x xs ih =>
    intro a b h
    by_cases hx : x = c
    · simp only [splitFirst, if_pos hx, Option.some.injEq, Prod.mk.injEq] at h
      obtain ⟨h1, h2⟩ := h
      subst h1; subst h2
      constructor
      · simp [hx]
      · intro y hy; simp at hy
    · simp only [splitFirst, if_neg hx] at h
      cases hrec : splitFirst c xs with
      | none => rw [hrec] at h; simp at h
      | some p =>
        obtain ⟨a', b'⟩ := p
        rw [hrec] at h
        simp only [Option.some.injEq, Prod.mk.injEq] at h
        obtain ⟨h1, h2⟩ := h
        subst h1; subst h2
        obtain ⟨hl, hfree⟩ := ih a' b' hrec
        constructor
        · simp [hl]
        · intro y hy
          rcases List.mem_cons.mp hy with rfl | hy'
          · exact hx
          · exact hfree y hy'

theorem string_ne_empty_of_data_ne {s : String} (h : s.data ≠ []) : s ≠ "" := by
  intro hs
  apply h
  rw [hs]

theorem data_ne_of_string_ne {s : String} (h : s ≠ "") : s.data ≠ [] := by
  intro hd
  apply h
  cases s with
  | mk l => cases hd; rfl

/-- Soundness and computation of the embedded regex match on a string
assembled from its three groups. -/
theorem parse_append_ok (o r d : String) (ho : o ≠ "") (ho2 : ∀ c ∈ o.data, c ≠ '/')
    (hr : r ≠ "") (hr2 : ∀ c ∈ r.data, c ≠ '#') (hd : d ≠ "")
    (hd2 : ∀ c ∈ d.data, c.isDigit = true) :
    parseTaskRef (o ++ "/" ++ r ++ "#" ++ d) = .ok ⟨o, r, decVal d.data⟩ := by
  have hdata : (o ++ "/" ++ r ++ "#" ++ d).data
      = o.data ++ '/' :: (r.data ++ '#' :: d.data) := by
    have h1 : ("/" : String).data = ['/'] := rfl
    have h2 : ("#" : String).data = ['#'] := rfl
    simp [String.data_append, h1, h2]
  have hoe : o.data.isEmpty = false :=
    List.isEmpty_eq_false.mpr (data_ne_of_string_ne ho)
  have hre : r.data.isEmpty = false :=
    List.isEmpty_eq_false.mpr (data_ne_of_string_ne hr)
  have hde : d.data.isEmpty = false :=
    List.isEmpty_eq_false.mpr (data_ne_of_string_ne hd)
  have hall : d.data.all Char.isDigit = true := List.all_eq_true.mpr hd2
  have hcore : parseTaskRefCore (o.data ++ '/' :: (r.data ++ '#' :: d.data))
      = some (o.data, r.data, d.data) := by
    simp [parseTaskRefCore, splitFirst_append '/' o.data (r.data ++ '#' :: d.data) ho2,
      splitFirst_append '#' r.data d.data hr2, hoe, hre, hde, hall]
  unfold parseTaskRef
  rw [hdata, hcore]

/-- Completeness: a successful parse exhibits the three-group shape. -/
theorem parse_ok_shape (s : String) (t : TaskRef) (h : parseTaskRef s = .ok t) :
    ∃ o r d : String, s = o ++ "/" ++ r ++ "#" ++ d ∧ o ≠ "" ∧ (∀ c ∈ o.data, c ≠ '/')
      ∧ r ≠ "" ∧ (∀ c ∈ r.data, c ≠ '#') ∧ d ≠ "" ∧ (∀ c ∈ d.data, c.isDigit = true)
      ∧ t = ⟨o, r, decVal d.data⟩ := by
  unfold parseTaskRef at h
  cases hc : parseTaskRefCore s.data with
  | none => rw [hc] at h; simp at h
  | some p =>
    obtain ⟨o, r, d⟩ := p
    rw [hc] at h
    simp only [Except.ok.injEq] at h
    unfold parseTaskRefCore at hc
    cases h1 : splitFirst '/' s.data with
    | none => rw [h1] at hc; simp at hc
    | some p1 =>
      obtain ⟨od, rest⟩ := p1
      rw [h1] at hc
      simp only [] at hc
      cases h2 : splitFirst '#' rest with
      | none => rw [h2] at hc; simp at hc
      | some p2 =>
        obtain ⟨rd, dd⟩ := p2
        rw [h2] at hc
        simp only [] at hc
        cases hemp : (od.isEmpty || rd.isEmpty || dd.isEmpty) with
        | true => rw [hemp] at hc; simp at hc
        | false =>
          rw [hemp] at hc
          cases hdig : dd.all Char.isDigit with
          | false => rw [hdig] at hc; simp at hc
          | true =>
            rw [hdig] at hc
            simp only [Bool.false_eq_true, if_false, if_true, Option.some.injEq,
              Prod.mk.injEq] at hc
            obtain ⟨hco, hcr, hcd⟩ := hc
            subst hco; subst hcr; subst hcd
            obtain ⟨hs1, hofree⟩ := splitFirst_eq_some '/' s.data od rest h1
            obtain ⟨hs2, hrfree⟩ := splitFirst_eq_some '#' rest rd dd h2
            simp only [Bool.or_eq_false_iff] at hemp
            obtain ⟨⟨hoe, hre⟩, hde⟩ := hemp
            refine ⟨⟨od⟩, ⟨rd⟩, ⟨dd⟩, ?_, ?_, ?_, ?_, ?_, ?_, ?_, ?_⟩
            · apply String.ext
              have hslash : ("/" : String).data = ['/'] := rfl
              have hhash : ("#" : String).data = ['#'] := rfl
              simp [String.data_append, hslash, hhash, hs1, hs2]
            · exact string_ne_empty_of_data_ne (List.isEmpty_eq_false.mp hoe)
            · exact hofree
            · exact string_ne_empty_of_data_ne (List.isEmpty_eq_false.mp hre)
            · exact hrfree
            · exact string_ne_empty_of_data_ne (List.isEmpty_eq_false.mp hde)
            · exact fun c hcmem => List.all_eq_true.mp hdig c hcmem
            · rw [← h]

/-- C2 (amended claim): for every reference string of the shape
`owner/repo#digits` — owner non-empty without `/`, repo non-empty without
`#`, digits a non-empty digit sequence — `parseTaskRef` returns the
owner, the repo and the decimal value of the digit group, a nonnegative
integer (zero included), and the branch derived from it is
`agent/issue-<value>`; for every string not of this shape `parseTaskRef`
fails with the invalid-reference error, and `run` then performs no
external step at all, in particular it creates no container. -/
theorem parseTaskRef_spec :
    (∀ o r d : String, o ≠ "" → (∀ c ∈ o.data, c ≠ '/') → r ≠ "" → (∀ c ∈ r.data, c ≠ '#') →
      d ≠ "" → (∀ c ∈ d.data, c.isDigit = true) →
      parseTaskRef (o ++ "/" ++ r ++ "#" ++ d) = .ok ⟨o, r, decVal d.data⟩
        ∧ branchFor (decVal d.data) = "agent/issue-" ++ toString (decVal d.data))
    ∧ (∀ s : String, (∀ t : TaskRef, parseTaskRef s ≠ .ok t) →
      parseTaskRef s = .error
        ("Invalid task reference: \"" ++ s ++ "\". Expected format: owner/repo#issue"))
    ∧ (∀ (s : String) (t : TaskRef), parseTaskRef s = .ok t →
      ∃ o r d : String, s = o ++ "/" ++ r ++ "#" ++ d ∧ o ≠ "" ∧ (∀ c ∈ o.data, c ≠ '/')
        ∧ r ≠ "" ∧ (∀ c ∈ r.data, c ≠ '#') ∧ d ≠ "" ∧ (∀ c ∈ d.data, c.isDigit = true)
        ∧ t = ⟨o, r, decVal d.data⟩)
    ∧ (∀ (w : World) (opts : RunOptions) (e : String), parseTaskRef opts.taskRef = .error e →
      run w opts = (.error e, [])) := by
  refine ⟨?_, ?_, ?_, ?_⟩
  · intro o r d ho ho2 hr hr2 hd hd2
    exact ⟨parse_append_ok o r d ho ho2 hr hr2 hd hd2, rfl⟩
  · intro s hno
    unfold parseTaskRef
    cases hc : parseTaskRefCore s.data with
    | none => rfl
    | some p =>
      obtain ⟨o, r, d⟩ := p
      exfalso
      apply hno ⟨⟨o⟩, ⟨r⟩, decVal d⟩
      unfold parseTaskRef
      rw [hc]
  · exact parse_ok_shape
  · intro w opts e h
    unfold run
    rw [h]

/-- C2 counterexample: the reference `a/b#0` is of the claimed shape yet
parses to issue number `0`, which is not a positive integer. -/
theorem parseTaskRef_zero_issue :
    parseTaskRef "a/b#0" = .ok ⟨"a", "b", 0⟩ ∧ (⟨"a", "b", 0⟩ : TaskRef).issue = 0 :=
  ⟨rfl, rfl⟩

theorem parseTaskRef_spec_witness :
    parseTaskRef "acme/widgets#42" = .ok ⟨"acme", "widgets", decVal "42".data⟩ :=
  (parseTaskRef_spec.1 "acme" "widgets" "42" (by decide) (by decide) (by decide)
    (by decide) (by decide) (by decide)).1

/-- C10 (confirmed): issue numbers are decimally normalised at the
parsing interface: for every digit string the parsed issue number is its
decimal value, references differing only in leading zeros parse to the
same `TaskRef` and derive the same branch name, and `#0` is accepted
with issue number `0`. -/
theorem parseTaskRef_decimal_normalization :
    (∀ o r d : String, o ≠ "" → (∀ c ∈ o.data, c ≠ '/') → r ≠ "" → (∀ c ∈ r.data, c ≠ '#') →
      d ≠ "" → (∀ c ∈ d.data, c.isDigit = true) →
      parseTaskRef (o ++ "/" ++ r ++ "#" ++ d) = .ok ⟨o, r, decVal d.data⟩)
    ∧ parseTaskRef "acme/widgets#007" = parseTaskRef "acme/widgets#7"
    ∧ parseTaskRef "acme/widgets#7" = .ok ⟨"acme", "widgets", 7⟩
    ∧ branchFor 7 = "agent/issue-7"
    ∧ parseTaskRef "acme/widgets#0" = .ok ⟨"acme", "widgets", 0⟩ :=
  ⟨fun o r d ho ho2 hr hr2 hd hd2 => parse_append_ok o r d ho ho2 hr hr2 hd hd2,
    rfl, rfl, rfl, rfl⟩

theorem parseTaskRef_decimal_normalization_witness :
    parseTaskRef "u/v#007" = .ok ⟨"u", "v", decVal "007".data⟩ :=
  parseTaskRef_decimal_normalization.1 "u" "v" "007" (by decide) (by decide) (by decide)
    (by decide) (by decide) (by decide)

/-- C7 (confirmed): for every combination of inputs the prompt is the
newline-join of a line list that contains, in this order, `## Task`
followed directly by the issue title, `## Description` followed directly
by the issue body, `## Instructions` whose bullet block names the branch
and forbids creating a pull request, and `## Context` followed by the
issue reference. -/
theorem buildTaskPrompt_structure (owner repo branch issueTitle issueBody : String)
    (issueNumber : Nat) :
    buildTaskPrompt owner repo branch issueTitle issueBody issueNumber
      = String.intercalate "\n"
          (buildTaskPromptLines owner repo branch issueTitle issueBody issueNumber)
    ∧ ∃ i1 i2 i3 i4 : Nat, i1 < i2 ∧ i2 < i3 ∧ i3 < i4
      ∧ (buildTaskPromptLines owner repo branch issueTitle issueBody issueNumber)[i1]?
          = some "## Task"
      ∧ (buildTaskPromptLines owner repo branch issueTitle issueBody issueNumber)[i1 + 1]?
          = some issueTitle
      ∧ (buildTaskPromptLines owner repo branch issueTitle issueBody issueNumber)[i2]?
          = some "## Description"
      ∧ (buildTaskPromptLines owner repo branch issueTitle issueBody issueNumber)[i2 + 1]?
          = some issueBody
      ∧ (buildTaskPromptLines owner repo branch issueTitle issueBody issueNumber)[i3]?
          = some "## Instructions"
      ∧ (∃ j : Nat, i3 < j ∧ j < i4
          ∧ (buildTaskPromptLines owner repo branch issueTitle issueBody issueNumber)[j]?
              = some ("- You are on branch `" ++ branch ++ "`"))
      ∧ (∃ m : Nat, i3 < m ∧ m < i4
          ∧ (buildTaskPromptLines owner repo branch issueTitle issueBody issueNumber)[m]?
              = some "- Do NOT create a pull request -- the orchestrator will handle that")
      ∧ (buildTaskPromptLines owner repo branch issueTitle issueBody issueNumber)[i4]?
          = some "## Context"
      ∧ (∃ k : Nat, i4 < k
          ∧ (buildTaskPromptLines owner repo branch issueTitle issueBody issueNumber)[k]?
              = some ("- Source issue: " ++ owner ++ "/" ++ repo ++ "#" ++ toString issueNumber)) :=
  ⟨rfl, 2, 5, 8, 15, by decide, by decide, by decide, rfl, rfl, rfl, rfl, rfl,
    ⟨9, by decide, by decide, rfl⟩, ⟨13, by decide, by decide, rfl⟩, rfl,
    ⟨16, by decide, rfl⟩⟩

/-- C3 counterexample: with the default 30-minute timeout and an agent
call that never settles, the outcome error is the rejection message of
the `timeout` helper, `Timed out after 1800000ms`, and the summary is
`Agent failed` — not the `did not complete within 30 minutes` /
`Agent timed out` record the claim requires. -/
theorem runTask_timeout_message_counterexample :
    runTask (some "ses") PromptBehavior.pending 1800000
      = .ok { success := false, sessionId := "ses", summary := "Agent failed",
              error := some "Timed out after 1800000ms" }
    ∧ ("Timed out after 1800000ms" ≠ "Task did not complete within 30 minutes")
    ∧ ("Agent failed" ≠ "Agent timed out") :=
  ⟨rfl, by decide, by decide⟩

/-- C3 (amended claim): the timeout outcome occurs exactly when the
agent prompt call has not settled strictly before the configured
duration, and it is `{success:false, summary:"Agent failed",
error:"Timed out after <ms>ms"}` (surfaced through the catch branch);
a prompt call that fulfils before the deadline — even 1ms before —
yields `{success:true}`, never a timeout; a prompt call that rejects
before the deadline yields a failure carrying its own message. -/
theorem runTask_timeout_semantics :
    (∀ (sid : String) (pb : PromptBehavior) (tms : Nat), settlesBefore pb tms = false →
      runTask (some sid) pb tms
        = .ok { success := false, sessionId := sid, summary := "Agent failed",
                error := some (timeoutMessage tms) })
    ∧ (∀ (sid : String) (t : Nat) (v : PromptValue) (tms : Nat), t < tms →
      runTask (some sid) (.fulfilled t v) tms
        = .ok { success := true, sessionId := sid, summary := "Task completed successfully" })
    ∧ (∀ (sid : String) (t : Nat) (m : String) (tms : Nat), t < tms →
      runTask (some sid) (.rejected t m) tms
        = .ok { success := false, sessionId := sid, summary := "Agent failed",
                error := some m }) := by
  refine ⟨?_, ?_, ?_⟩
  · intro sid pb tms h
    cases pb with
    | fulfilled t v =>
      simp only [settlesBefore, decide_eq_false_iff_not] at h
      simp [runTask, race, if_neg h]
    | rejected t m =>
      simp only [settlesBefore, decide_eq_false_iff_not] at h
      simp [runTask, race, if_neg h]
    | pending => simp [runTask, race]
  · intro sid t v tms h
    simp [runTask, race, if_pos h, jsTruthy]
  · intro sid t m tms h
    simp [runTask, race, if_pos h]

theorem runTask_timeout_semantics_witness :
    runTask (some "s") PromptBehavior.pending 60000
      = .ok { success := false, sessionId := "s", summary := "Agent failed",
              error := some (timeoutMessage 60000) } :=
  runTask_timeout_semantics.1 "s" PromptBehavior.pending 60000 rfl

/-- C9 (confirmed): the non-exception timeout branch of `runTask` is
unreachable — no `.ok` outcome ever carries the summary
`Agent timed out`, because the `timeout` helper only rejects and the
prompt promise fulfils with an object, which is truthy — and every
elapsed timeout instead surfaces through the catch branch as
`{success:false, summary:"Agent failed", error:"Timed out after <ms>ms"}`. -/
theorem runTask_dead_timeout_branch :
    (∀ (sess : Option String) (pb : PromptBehavior) (tms : Nat) (r : AgentResult),
      runTask sess pb tms = .ok r → r.summary ≠ "Agent timed out")
    ∧ (∀ (sid : String) (pb : PromptBehavior) (tms : Nat), settlesBefore pb tms = false →
      runTask (some sid) pb tms
        = .ok { success := false, sessionId := sid, summary := "Agent failed",
                error := some (timeoutMessage tms) }) := by
  constructor
  · intro sess pb tms r h
    cases sess with
    | none => exact absurd h (by simp [runTask])
    | some sid =>
      unfold runTask at h
      try simp only [] at h
      cases hr : race pb tms with
      | fulfilled v =>
        rw [hr] at h
        try simp only [] at h
        rw [if_neg (by simp [jsTruthy])] at h
        injection h with h
        rw [← h]
        simp
      | rejected m =>
        rw [hr] at h
        try simp only [] at h
        injection h with h
        rw [← h]
        simp
  · intro sid pb tms h
    cases pb with
    | fulfilled t v =>
      simp only [settlesBefore, decide_eq_false_iff_not] at h
      simp [runTask, race, if_neg h]
    | rejected t m =>
      simp only [settlesBefore, decide_eq_false_iff_not] at h
      simp [runTask, race, if_neg h]
    | pending => simp [runTask, race]

theorem runTask_dead_timeout_branch_witness :
    ({ success := true, sessionId := "w", summary := "Task completed successfully",
       error := none } : AgentResult).summary ≠ "Agent timed out" :=
  runTask_dead_timeout_branch.1 (some "w") (PromptBehavior.fulfilled 0 ⟨""⟩) 5
    { success := true, sessionId := "w", summary := "Task completed successfully",
      error := none } rfl

/-- C6 (confirmed): `destroyContainer` never raises for any exit codes
of the underlying `podman stop` and `podman rm --force` commands: both
commands are always attempted, a non-zero exit of either is logged as a
warning only, and with both exits zero no warning is produced; in
particular a second destroy on an already-removed handle (both commands
failing) yields warnings, never a thrown error. -/
theorem destroyContainer_spec (cid stopStderr rmStderr : String) (stopExit rmExit : Nat) :
    ∃ warnings : List String,
      destroyContainer cid stopExit stopStderr rmExit rmStderr
        = .ok ([DestroyStep.stopCmd cid, DestroyStep.rmCmd cid], warnings)
      ∧ (stopExit = 0 ∧ rmExit = 0 → warnings = [])
      ∧ (stopExit ≠ 0 → stopWarning cid stopStderr ∈ warnings)
      ∧ (rmExit ≠ 0 → rmWarning cid rmStderr ∈ warnings) := by
  refine ⟨(if stopExit ≠ 0 then [stopWarning cid stopStderr] else [])
    ++ (if rmExit ≠ 0 then [rmWarning cid rmStderr] else []), rfl, ?_, ?_, ?_⟩
  · rintro ⟨h1, h2⟩
    simp [h1, h2]
  · intro h
    simp [h]
  · intro h
    simp [h]

theorem destroyContainer_spec_witness :
    ∃ warnings : List String,
      destroyContainer "deadbeef0123" 1 "no such container" 1 "no such container"
        = .ok ([DestroyStep.stopCmd "deadbeef0123", DestroyStep.rmCmd "deadbeef0123"], warnings)
      ∧ stopWarning "deadbeef0123" "no such container" ∈ warnings
      ∧ rmWarning "deadbeef0123" "no such container" ∈ warnings := by
  obtain ⟨w, h1, _h2, h3, h4⟩ :=
    destroyContainer_spec "deadbeef0123" "no such container" "no such container" 1 1
  exact ⟨w, h1, h3 (by decide), h4 (by decide)⟩

/-- C8 counterexample: when the log-retrieval command fails with a
non-zero exit (stdout empty), `getContainerLogs` returns the command's
stderr text to its caller — not a placeholder string. -/
theorem getContainerLogs_failure_counterexample :
    getContainerLogs (.completed "" "Error: no such container" 125)
      = .ok "Error: no such container"
    ∧ "Error: no such container" ≠ "(logs unavailable)" :=
  ⟨rfl, by decide⟩

/-- C8 (amended claim): `getContainerLogs` requests the bounded tail
(last 100 lines) and, whatever the exit code of the command, returns
stdout if non-empty and stderr otherwise, never turning the exit code
into an error; the placeholder `(logs unavailable)` is substituted by
`run`'s call site only when the invocation itself rejects. -/
theorem getContainerLogs_spec (cid stdout stderr m : String) (exitCode : Nat) :
    getLogsCmd cid = ["podman", "logs", "--tail", "100", cid]
    ∧ getContainerLogs (.completed stdout stderr exitCode) = .ok (jsOrElse stdout stderr)
    ∧ containerLogsForFailure (.threw m) = "(logs unavailable)"
    ∧ containerLogsForFailure (.completed stdout stderr exitCode) = jsOrElse stdout stderr :=
  ⟨rfl, rfl, rfl, rfl⟩

theorem schedStart_succ (polls : Nat → PollSpec) (k : Nat) :
    schedStart polls (k + 1) = schedStart polls k + pollDuration (polls k) + pollIntervalMs :=
  rfl

theorem schedStart_le_schedStart (polls : Nat → PollSpec) {i k : Nat} (h : i ≤ k) :
    schedStart polls i ≤ schedStart polls k := by
  induction h with
  | refl => exact le_refl _
  | step h ih =>
    refine le_trans ih ?_
    rw [schedStart_succ]
    simp only [pollIntervalMs]
    omega

theorem waitGo_ok_iff (cid : String) (polls : Nat → PollSpec) (timeoutMs : Nat) :
    ∀ fuel i : Nat,
      timeoutMs + pollIntervalMs ≤ schedStart polls i + pollIntervalMs * fuel →
      ((waitGo cid polls timeoutMs fuel i (schedStart polls i)).1 = .ok ()
        ↔ ∃ k : Nat, i ≤ k ∧ schedStart polls k < timeoutMs
            ∧ pollReceivesHealthy (polls k) = true) := by
  intro fuel
  induction fuel with
  | zero =>
    intro i h
    have hge : ¬ schedStart polls i < timeoutMs := by
      simp only [pollIntervalMs] at h
      omega
    simp only [waitGo, if_neg hge]
    constructor
    · intro hcontra; exact absurd hcontra (by simp)
    · rintro ⟨k, hik, hk, _⟩
      have := schedStart_le_schedStart polls hik
      omega
  | succ fuel ih =>
    intro i h
    by_cases hcond : schedStart polls i < timeoutMs
    · simp only [waitGo, if_pos hcond]
      by_cases hrecv : pollReceivesHealthy (polls i) = true
      · simp only [if_pos hrecv]
        constructor
        · intro _
          exact ⟨i, le_refl i, hcond, hrecv⟩
        · intro _
          trivial
      · simp only [if_neg hrecv]
        rw [show schedStart polls i + pollDuration (polls i) + pollIntervalMs
          = schedStart polls (i + 1) from rfl]
        have h' : timeoutMs + pollIntervalMs
            ≤ schedStart polls (i + 1) + pollIntervalMs * fuel := by
          have hstep := schedStart_succ polls i
          simp only [pollIntervalMs] at h hstep ⊢
          omega
        rw [ih (i + 1) h']
        constructor
        · rintro ⟨k, hik, hk, hr⟩
          exact ⟨k, le_trans (Nat.le_succ i) hik, hk, hr⟩
        · rintro ⟨k, hik, hk, hr⟩
          rcases Nat.eq_or_lt_of_le hik with rfl | hlt
          · exact absurd hr hrecv
          · exact ⟨k, hlt, hk, hr⟩
    · simp only [waitGo, if_neg hcond]
      constructor
      · intro hcontra; exact absurd hcontra (by simp)
      · rintro ⟨k, hik, hk, _⟩
        have := schedStart_le_schedStart polls hik
        omega

theorem waitGo_ok_or_timeout (cid : String) (polls : Nat → PollSpec) (timeoutMs : Nat) :
    ∀ fuel i : Nat,
      timeoutMs + pollIntervalMs ≤ schedStart polls i + pollIntervalMs * fuel →
      (waitGo cid polls timeoutMs fuel i (schedStart polls i)).1 = .ok ()
        ∨ (waitGo cid polls timeoutMs fuel i (schedStart polls i)).1
            = .error (healthTimeoutMsg cid timeoutMs) := by
  intro fuel
  induction fuel with
  | zero =>
    intro i h
    have hge : ¬ schedStart polls i < timeoutMs := by
      simp only [pollIntervalMs] at h
      omega
    simp only [waitGo, if_neg hge]
    right
    trivial
  | succ fuel ih =>
    intro i h
    by_cases hcond : schedStart polls i < timeoutMs
    · simp only [waitGo, if_pos hcond]
      by_cases hrecv : pollReceivesHealthy (polls i) = true
      · simp only [if_pos hrecv]
        left
        trivial
      · simp only [if_neg hrecv]
        rw [show schedStart polls i + pollDuration (polls i) + pollIntervalMs
          = schedStart polls (i + 1) from rfl]
        apply ih (i + 1)
        have hstep := schedStart_succ polls i
        simp only [pollIntervalMs] at h hstep ⊢
        omega
    · simp only [waitGo, if_neg hcond]
      right
      trivial

theorem waitGo_starts (cid : String) (polls : Nat → PollSpec) (timeoutMs : Nat) :
    ∀ fuel i : Nat,
      (∀ t ∈ (waitGo cid polls timeoutMs fuel i (schedStart polls i)).2, t < timeoutMs)
      ∧ (∀ n t : Nat,
          ((waitGo cid polls timeoutMs fuel i (schedStart polls i)).2)[n]? = some t →
          t = schedStart polls (i + n)) := by
  intro fuel
  induction fuel with
  | zero =>
    intro i
    constructor
    · intro t ht
      simp only [waitGo] at ht
      split at ht <;> simp at ht
    · intro n t ht
      simp only [waitGo] at ht
      split at ht <;> simp at ht
  | succ fuel ih =>
    intro i
    by_cases hcond : schedStart polls i < timeoutMs
    · by_cases hrecv : pollReceivesHealthy (polls i) = true
      · constructor
        · intro t ht
          simp only [waitGo, if_pos hcond, if_pos hrecv, List.mem_singleton] at ht
          rw [ht]
          exact hcond
        · intro n t ht
          simp only [waitGo, if_pos hcond, if_pos hrecv] at ht
          cases n with
          | zero =>
            simp only [List.getElem?_cons_zero, Option.some.injEq] at ht
            rw [← ht, Nat.add_zero]
          | succ n =>
            simp at ht
      · constructor
        · intro t ht
          simp only [waitGo, if_pos hcond, if_neg hrecv, List.mem_cons] at ht
          rcases ht with rfl | ht
          · exact hcond
          · rw [show schedStart polls i + pollDuration (polls i) + pollIntervalMs
              = schedStart polls (i + 1) from rfl] at ht
            exact (ih (i + 1)).1 t ht
        · intro n t ht
          simp only [waitGo, if_pos hcond, if_neg hrecv] at ht
          cases n with
          | zero =>
            simp only [List.getElem?_cons_zero, Option.some.injEq] at ht
            rw [← ht, Nat.add_zero]
          | succ n =>
            simp only [List.getElem?_cons_succ] at ht
            rw [show schedStart polls i + pollDuration (polls i) + pollIntervalMs
              = schedStart polls (i + 1) from rfl] at ht
            have := (ih (i + 1)).2 n t ht
            rw [this]
            congr 1
            omega
    · constructor
      · intro t ht
        simp only [waitGo, if_neg hcond] at ht
        simp at ht
      · intro n t ht
        simp only [waitGo, if_neg hcond] at ht
        simp at ht

theorem healthFuel_adequate (timeoutMs : Nat) :
    timeoutMs + pollIntervalMs ≤ pollIntervalMs * healthFuel timeoutMs := by
  simp only [pollIntervalMs, healthFuel]
  have h1 := Nat.div_add_mod timeoutMs 3000
  have h2 : timeoutMs % 3000 < 3000 := Nat.mod_lt _ (by omega)
  omega

/-- C4 (confirmed): `waitForHealthy` returns successfully exactly when
some poll started within the deadline receives a response that arrives
before the 2-second per-call abort, is 2xx, and reports `healthy:true`;
otherwise it fails with the timeout error; every poll is started
strictly before the deadline; poll `k` starts at the scheduled time
(the previous poll's start plus its duration plus the 3-second
interval), and each poll's duration is bounded by the 2-second per-call
timeout. -/
theorem waitForHealthy_spec (cid : String) (polls : Nat → PollSpec) (timeoutMs : Nat) :
    ((waitForHealthy cid polls timeoutMs).1 = .ok ()
      ↔ ∃ k : Nat, schedStart polls k < timeoutMs ∧ pollReceivesHealthy (polls k) = true)
    ∧ ((waitForHealthy cid polls timeoutMs).1 = .ok ()
        ∨ (waitForHealthy cid polls timeoutMs).1 = .error (healthTimeoutMsg cid timeoutMs))
    ∧ (∀ t ∈ (waitForHealthy cid polls timeoutMs).2, t < timeoutMs)
    ∧ (∀ n t : Nat, ((waitForHealthy cid polls timeoutMs).2)[n]? = some t →
        t = schedStart polls n)
    ∧ (∀ p : PollSpec, pollDuration p ≤ perPollTimeoutMs) := by
  have h0 : (0 : Nat) = schedStart polls 0 := rfl
  have hfuel : timeoutMs + pollIntervalMs
      ≤ schedStart polls 0 + pollIntervalMs * healthFuel timeoutMs := by
    have := healthFuel_adequate timeoutMs
    simp only [schedStart]
    omega
  refine ⟨?_, ?_, ?_, ?_, ?_⟩
  · constructor
    · intro hok
      obtain ⟨k, _, hk, hr⟩ :=
        (waitGo_ok_iff cid polls timeoutMs (healthFuel timeoutMs) 0 hfuel).mp hok
      exact ⟨k, hk, hr⟩
    · rintro ⟨k, hk, hr⟩
      exact (waitGo_ok_iff cid polls timeoutMs (healthFuel timeoutMs) 0 hfuel).mpr
        ⟨k, Nat.zero_le k, hk, hr⟩
  · exact waitGo_ok_or_timeout cid polls timeoutMs (healthFuel timeoutMs) 0 hfuel
  · exact (waitGo_starts cid polls timeoutMs (healthFuel timeoutMs) 0).1
  · intro n t ht
    have hsched := (waitGo_starts cid polls timeoutMs (healthFuel timeoutMs) 0).2 n t ht
    rw [hsched]
    congr 1
    omega
  · intro p
    exact Nat.min_le_right _ _

theorem waitForHealthy_spec_witness :
    (waitForHealthy "c" (fun _ => ⟨100, true, true⟩) 10000).1 = .ok () :=
  (waitForHealthy_spec "c" (fun _ => ⟨100, true, true⟩) 10000).1.mpr
    ⟨0, by decide, by decide⟩

theorem createContainer_exit_zero (repo branch : String) (hostPort : Nat)
    (stdout stderr : String) :
    createContainer repo branch hostPort (.completed stdout stderr 0)
      = .ok { id := stdout.take 12, hostPort := hostPort, repo := repo, branch := branch } := by
  simp [createContainer]

theorem createContainer_exit_nonzero (repo branch : String) (hostPort n : Nat)
    (stdout stderr : String) (hn : n ≠ 0) :
    createContainer repo branch hostPort (.completed stdout stderr n)
      = .error ("Failed to create container (exit " ++ toString n ++ "): " ++ stderr) := by
  simp [createContainer, hn]

theorem commentActions_no_destroy (q : Bool) :
    (commentActions q).filter isDestroyA = [] := by
  cases q <;> rfl

theorem runBody_no_destroy (w : World) (opts : RunOptions) (c : Container) :
    (runBody w opts c).2.filter isDestroyA = [] := by
  unfold runBody
  repeat' split
  all_goals cases opts.quiet <;> rfl

theorem runBody_ok_cases (w : World) (opts : RunOptions) (c : Container) (r : RunResult)
    (h : (runBody w opts c).1 = .ok r) :
    (∃ msg : String, r = { success := false, error := some msg })
    ∨ (∃ url : String, r = { success := true, prUrl := some url }) := by
  unfold runBody at h
  cases hw : (waitForHealthy c.id w.polls defaultHealthTimeoutMs).1 with
  | error e => rw [hw] at h; simp at h
  | ok u =>
    rw [hw] at h
    try simp only [] at h
    cases ht : runTask w.sessionData w.promptB (opts.timeoutMinutes * 60 * 1000) with
    | error e => rw [ht] at h; simp at h
    | ok agentResult =>
      rw [ht] at h
      try simp only [] at h
      by_cases hs : agentResult.success = false
      · rw [if_pos hs] at h
        try simp only [] at h
        injection h with h
        exact Or.inl ⟨agentResult.error.getD "Agent failed", h.symm⟩
      · rw [if_neg hs] at h
        try simp only [] at h
        cases hp : pushBranchFromContainer w.pushRes with
        | error e => rw [hp] at h; simp at h
        | ok pushResult =>
          rw [hp] at h
          try simp only [] at h
          by_cases hps : pushResult.success = false
          · rw [if_pos hps] at h
            try simp only [] at h
            injection h with h
            exact Or.inl ⟨"Failed to push branch: " ++ pushResult.error.getD "undefined", h.symm⟩
          · rw [if_neg hps] at h
            try simp only [] at h
            cases hpr : w.prRes with
            | error e => rw [hpr] at h; simp at h
            | ok url =>
              rw [hpr] at h
              try simp only [] at h
              injection h with h
              exact Or.inr ⟨url, h.symm⟩

/-- C1 (confirmed): whenever the container was successfully created —
reference parsed, issue fetched, `podman run` exited zero — the action
trace of `run` contains exactly one destroy step, on that container's
id, and it is the last step before `run` returns to its caller; this
holds on the success path, the agent-failure and agent-timeout paths,
the health-timeout path, the publish-failure path, and every
thrown-error path alike, since they all funnel through the `finally`. -/
theorem run_cleanup_always (w : World) (opts : RunOptions)
    (ref : TaskRef) (issue : Issue) (stdout stderr : String)
    (hparse : parseTaskRef opts.taskRef = .ok ref)
    (hissue : w.issueRes = .ok issue)
    (hcreate : w.createRes = .completed stdout stderr 0) :
    (run w opts).2.filter isDestroyA = [Action.destroyA (stdout.take 12)]
    ∧ (run w opts).2.getLast? = some (Action.destroyA (stdout.take 12)) := by
  unfold run
  rw [hparse]
  simp only []
  rw [hissue]
  simp only []
  rw [hcreate, createContainer_exit_zero]
  simp only []
  constructor
  · simp [List.filter_append, runBody_no_destroy, isDestroyA]
  · rw [List.getLast?_concat]

theorem run_cleanup_always_witness :
    (run happyWorld { taskRef := "acme/widgets#42" }).2.filter isDestroyA
      = [Action.destroyA ("abcdef0123456789".take 12)]
    ∧ (run happyWorld { taskRef := "acme/widgets#42" }).2.getLast?
      = some (Action.destroyA ("abcdef0123456789".take 12)) :=
  run_cleanup_always happyWorld { taskRef := "acme/widgets#42" }
    ⟨"acme", "widgets", 42⟩ { number := 42, title := "t", body := "b", labels := [], url := "u" }
    "abcdef0123456789" "" rfl rfl rfl

/-- C5 counterexample: on the malformed reference `not-a-ref`, `run`
does not return a structured failure outcome — the invalid-reference
error escapes it as a thrown error. -/
theorem run_structured_outcome_counterexample :
    (run happyWorld { taskRef := "not-a-ref" }).1
      = .error "Invalid task reference: \"not-a-ref\". Expected format: owner/repo#issue" :=
  rfl

/-- C5 (amended claim): `run` hands its caller exactly one outcome
value; a structured `RunResult` is produced only on the agent-failure
and publish-failure paths (always `{success:false}` with one error
message) and on full success (always with the pull-request URL); the
first four error kinds — invalid reference, environment creation
failure, health timeout, session creation failure — are not converted
into structured failure outcomes but escape `run` as thrown errors,
while cleanup still runs whenever the container exists. -/
theorem run_outcome_policy :
    (∀ (w : World) (opts : RunOptions) (r : RunResult), (run w opts).1 = .ok r →
      (∃ msg : String, r = { success := false, error := some msg })
      ∨ (∃ url : String, r = { success := true, prUrl := some url }))
    ∧ (∀ (w : World) (opts : RunOptions) (e : String),
      parseTaskRef opts.taskRef = .error e → (run w opts).1 = .error e)
    ∧ (∀ (w : World) (opts : RunOptions) (ref : TaskRef) (issue : Issue)
        (stdout stderr : String) (n : Nat),
      parseTaskRef opts.taskRef = .ok ref → w.issueRes = .ok issue →
      w.createRes = .completed stdout stderr n → n ≠ 0 →
      (run w opts).1
        = .error ("Failed to create container (exit " ++ toString n ++ "): " ++ stderr))
    ∧ (∀ (w : World) (opts : RunOptions) (ref : TaskRef) (issue : Issue)
        (stdout stderr e : String),
      parseTaskRef opts.taskRef = .ok ref → w.issueRes = .ok issue →
      w.createRes = .completed stdout stderr 0 →
      (waitForHealthy (stdout.take 12) w.polls defaultHealthTimeoutMs).1 = .error e →
      (run w opts).1 = .error e)
    ∧ (∀ (w : World) (opts : RunOptions) (ref : TaskRef) (issue : Issue)
        (stdout stderr : String),
      parseTaskRef opts.taskRef = .ok ref → w.issueRes = .ok issue →
      w.createRes = .completed stdout stderr 0 →
      (waitForHealthy (stdout.take 12) w.polls defaultHealthTimeoutMs).1 = .ok () →
      w.sessionData = none →
      (run w opts).1 = .error "Failed to create session: no data returned") := by
  refine ⟨?_, ?_, ?_, ?_, ?_⟩
  · intro w opts r h
    unfold run at h
    cases hp : parseTaskRef opts.taskRef with
    | error e => rw [hp] at h; simp at h
    | ok ref =>
      rw [hp] at h
      try simp only [] at h
      cases hi : w.issueRes with
      | error e => rw [hi] at h; simp at h
      | ok issue =>
        rw [hi] at h
        try simp only [] at h
        cases hc : createContainer (ref.owner ++ "/" ++ ref.repo) (branchFor ref.issue)
            w.hostPort w.createRes with
        | error e => rw [hc] at h; simp at h
        | ok c =>
          rw [hc] at h
          try simp only [] at h
          exact runBody_ok_cases w opts c r h
  · intro w opts e h
    unfold run
    rw [h]
  · intro w opts ref issue stdout stderr n hparse hissue hcreate hn
    unfold run
    rw [hparse]
    simp only []
    rw [hissue]
    simp only []
    rw [hcreate, createContainer_exit_nonzero _ _ _ _ _ _ hn]
  · intro w opts ref issue stdout stderr e hparse hissue hcreate hhealth
    unfold run
    rw [hparse]
    simp only []
    rw [hissue]
    simp only []
    rw [hcreate, createContainer_exit_zero]
    simp only []
    unfold runBody
    simp only []
    rw [hhealth]
  · intro w opts ref issue stdout stderr hparse hissue hcreate hhealth hsession
    unfold run
    rw [hparse]
    simp only []
    rw [hissue]
    simp only []
    rw [hcreate, createContainer_exit_zero]
    simp only []
    unfold runBody
    simp only []
    rw [hhealth]
    simp only []
    rw [hsession]
    rfl

theorem run_outcome_policy_witness :
    (run happyWorld { taskRef := "nope" }).1
      = .error "Invalid task reference: \"nope\". Expected format: owner/repo#issue" :=
  run_outcome_policy.2.1 happyWorld { taskRef := "nope" }
    "Invalid task reference: \"nope\". Expected format: owner/repo#issue" rfl

end Commander
